import Mathlib

/-!
Verification development for the pi-agent job lifecycle engine
(`modules/utils.js`, `modules/printer.js`, `modules/job-handler.js`,
`modules/errors.js`).

The JavaScript code is shallowly embedded: pure computations become Lean
functions over `String`/`List Char`, external effects (the CUPS spooler,
the filesystem, the conversion tools, the PDF parser) are passed in as
explicit oracle values describing what the external world answers, and
the single-worker job executor becomes a small-step transition relation
on an explicit state record.
-/

set_option maxRecDepth 16384

deriving instance DecidableEq for Except

namespace PiAgent

/-! ## JavaScript string primitives

Models of the JS string operations the agent uses, over `List Char`.
All strings the agent handles are ASCII, where `Char.toLower` agrees
with JS `toLowerCase`. -/

/-- JS `String.prototype.toLowerCase` (ASCII fragment). -/
def lowerStr (s : String) : String := ⟨s.data.map Char.toLower⟩

/-- JS string truthiness: a string is truthy iff it is nonempty. -/
def jsTruthy (s : String) : Bool := !s.data.isEmpty

/-- Leftmost substring search, `containsL pat s` ⇔ JS `s.includes(pat)`. -/
def containsL (pat : List Char) : List Char → Bool
  | [] => pat.isEmpty
  | c :: cs => pat.isPrefixOf (c :: cs) || containsL pat cs

/-- JS `String.prototype.includes`. -/
def includes (s pat : String) : Bool := containsL pat.data s.data

/-- JS `String.prototype.startsWith`. -/
def jsStartsWith (s pre : String) : Bool := pre.data.isPrefixOf s.data

/-- JS `String.prototype.replace` with a string pattern: replace the
leftmost occurrence of `pat` (if any) and leave the rest unchanged. -/
def replaceFirstL (pat rep : List Char) : List Char → List Char
  | [] => if pat.isEmpty then rep else []
  | c :: cs =>
    if pat.isPrefixOf (c :: cs) then rep ++ (c :: cs).drop pat.length
    else c :: replaceFirstL pat rep cs

/-- JS `String.prototype.replace(pat, rep)` (string pattern, first match). -/
def replaceFirst (s pat rep : String) : String := ⟨replaceFirstL pat.data rep.data s.data⟩

/-- Split on a separator character, `JS String.prototype.split(sep)`. -/
def splitOnCharL (sep : Char) : List Char → List (List Char)
  | [] => [[]]
  | c :: cs =>
    if c = sep then [] :: splitOnCharL sep cs
    else
      match splitOnCharL sep cs with
      | [] => [[c]]
      | l :: ls => (c :: l) :: ls

/-- JS `stdout.split('\n')`. -/
def splitLines (s : String) : List String := (splitOnCharL '\n' s.data).map String.mk

/-- JS `String.prototype.trim` (whitespace at both ends). -/
def jsTrim (s : String) : String :=
  ⟨((s.data.dropWhile Char.isWhitespace).reverse.dropWhile Char.isWhitespace).reverse⟩

/-! ## `path.extname` (Node.js, POSIX)

Faithful port of Node's `path.posix.extname` scanning loop: it walks the
path right to left, records the last dot of the final path component and
whether that component is only dots / a dotfile, and slices the
extension out of the original string. -/

structure ExtScan where
  startDot : Int := -1
  startPart : Nat := 0
  endIdx : Int := -1
  matchedSlash : Bool := true
  preDotState : Int := 0
deriving Repr, DecidableEq

/-- The right-to-left scan of `path.posix.extname`; the argument list is
the reversed path, so the head is the rightmost unseen character and its
original index is the length of the tail. -/
def extnameScan : List Char → ExtScan → ExtScan
  | [], st => st
  | c :: rest, st =>
    let i : Nat := rest.length
    if c = '/' then
      if !st.matchedSlash then { st with startPart := i + 1 }
      else extnameScan rest st
    else
      let st1 := if st.endIdx == -1 then
          { st with matchedSlash := false, endIdx := (i : Int) + 1 }
        else st
      let st2 :=
        if c = '.' then
          if st1.startDot == -1 then { st1 with startDot := (i : Int) }
          else if st1.preDotState != 1 then { st1 with preDotState := 1 }
          else st1
        else if st1.startDot != -1 then { st1 with preDotState := -1 }
        else st1
      extnameScan rest st2

/-- Node `path.extname`: the extension of the final path component, `""`
for dotfiles, components without a dot, and the component `..`. -/
def extname (s : String) : String :=
  let st := extnameScan s.data.reverse {}
  if st.startDot == -1 || st.endIdx == -1 || st.preDotState == 0 ||
      (st.preDotState == 1 && st.startDot == st.endIdx - 1 &&
        st.startDot == (st.startPart : Int) + 1) then
    ""
  else
    ⟨(s.data.take st.endIdx.toNat).drop st.startDot.toNat⟩

/-! ## `modules/utils.js` — file type detection -/

/-- Function `getFileType` from `modules/utils.js`: extension lookup on the
lowercased `path.extname` of the filename. -/
def getFileType (filename : String) : String :=
  let ext := lowerStr (extname filename)
  if ext = ".pdf" then "pdf"
  else if [".doc", ".docx", ".rtf", ".odt", ".txt", ".md"].contains ext then "document"
  else if [".png", ".jpg", ".jpeg"].contains ext then "image"
  else "unknown"

/-- Following the spec's words (§4.1 Classifier): the documented
extension table, a pure lookup from an (already lowercased) extension to
a kind: `.pdf`→pdf; `.doc/.docx/.rtf/.odt/.txt/.md`→document;
`.png/.jpg/.jpeg`→image; anything else→unknown. -/
def specClassify (ext : String) : String :=
  if ext = ".pdf" then "pdf"
  else if [".doc", ".docx", ".rtf", ".odt", ".txt", ".md"].contains ext then "document"
  else if [".png", ".jpg", ".jpeg"].contains ext then "image"
  else "unknown"

/-! ## `modules/errors.js` — error classes

Only the data carried by each error class is modelled; the `name`,
`code` and stack fields are determined by the class and suppressed. -/

/-- Class `ConversionError(message, fileType)` from `modules/errors.js`. -/
structure ConversionError where
  message : String
  fileType : String
deriving DecidableEq, Repr

/-- Class `PrinterError(message, printerName)` from `modules/errors.js`. -/
structure PrinterError where
  message : String
  printerName : Option String
deriving DecidableEq, Repr

/-! ## `modules/utils.js` — `verifyPDF`

`verifyPDF` reads the file and parses it with `PDFDocument.load`; both
are external, so they are modelled by an oracle `parse : Option Nat`
(`some n` = the document parsed with page count `n`, `none` = reading or
parsing threw, with message `parseErr`).  `expectedPages` is JS-falsy
for `undefined` and `0`.  On success the function returns the actual
page count together with whether the non-fatal mismatch warning was
logged; a parse failure is rethrown as a `ConversionError`. -/

/-- The `expectedPages && actualPages !== expectedPages` warning guard of
`verifyPDF` (`0`/`undefined` are falsy and never warn). -/
def pageMismatchWarn (actualPages : Nat) (expectedPages : Option Nat) : Bool :=
  match expectedPages with
  | some e => e != 0 && actualPages != e
  | none => false

/-- Function `verifyPDF` from `modules/utils.js`. -/
def verifyPDF (parse : Option Nat) (parseErr : String) (expectedPages : Option Nat) :
    Except ConversionError (Nat × Bool) :=
  match parse with
  | some actualPages => .ok (actualPages, pageMismatchWarn actualPages expectedPages)
  | none => .error ⟨"PDF verification failed: " ++ parseErr, "pdf"⟩

/-! ## `modules/printer.js` — printer detection -/

/-- Outcome of `exec('lpstat -p -d', …)`: either the callback receives an
error, or it receives the command's stdout. -/
inductive LpstatResult where
  | execError
  | output (stdout : String)
deriving DecidableEq, Repr

/-- The `/printer\s+(\S+)/` match of `detectPrinter`, applied to a line
already known to start with `"printer "`: the first nonspace run after
the whitespace following `printer`, or no match if there is none. -/
def printerLineName (line : String) : Option String :=
  let name := ((line.data.drop 7).dropWhile Char.isWhitespace).takeWhile
    (fun c => !c.isWhitespace)
  if name.isEmpty then none else some ⟨name⟩

/-- The `defaultPrinter` accumulated by `detectPrinter`'s `forEach`: the
value of the last `system default destination:` line (split on `:`,
second field, trimmed). -/
def lpstatDefault (stdout : String) : Option String :=
  (splitLines stdout).foldl
    (fun acc line =>
      if jsStartsWith line "system default destination:" then
        some (jsTrim (((splitOnCharL ':' line.data).map String.mk).getD 1 ""))
      else acc)
    none

/-- The `availablePrinters` accumulated by `detectPrinter`'s `forEach`:
the captured printer names of the `printer ` lines, in order. -/
def lpstatPrinters (stdout : String) : List String :=
  (splitLines stdout).filterMap fun line =>
    if jsStartsWith line "system default destination:" then none
    else if jsStartsWith line "printer " then printerLineName line
    else none

/-- The resolution `detectPrinter` performs on a successful `lpstat`
output: the default destination if truthy, else the first enumerated
printer, else `PrinterError('No printers found')`. -/
def detectPrinterFromOutput (stdout : String) : Except PrinterError String :=
  let defaultPrinter := (lpstatDefault stdout).getD ""
  if jsTruthy defaultPrinter then .ok defaultPrinter
  else
    match lpstatPrinters stdout with
    | firstPrinter :: _ => .ok firstPrinter
    | [] => .error ⟨"No printers found", none⟩

/-- Function `detectPrinter` from `modules/printer.js`: a configured non-`auto`
name resolves unchecked; for `auto` the spooler is queried, an `exec`
error rejects with `PrinterError('No printers available')`, otherwise
the output is parsed as above. -/
def detectPrinter (printerName : String) (lpstat : LpstatResult) :
    Except PrinterError String :=
  if printerName ≠ "auto" then .ok printerName
  else
    match lpstat with
    | .execError => .error ⟨"No printers available", none⟩
    | .output stdout => detectPrinterFromOutput stdout

/-! ## `modules/printer.js` — printer status check -/

/-- The `{status, detail}` objects `checkPrinterStatus` resolves with. -/
structure StatusResult where
  status : String
  detail : Option String
deriving DecidableEq, Repr

/-- The ordered substring classification `checkPrinterStatus` applies to
the (lowercased) `lpstat -p <printer> 2>&1` output: hard-error patterns
first, then the healthy patterns, then the `ipp_unsupported` fallback. -/
def classifyLpstatOutput (stdout : String) : StatusResult :=
  if includes (lowerStr stdout) "out of paper" || includes (lowerStr stdout) "media empty"
      || includes (lowerStr stdout) "no media" then
    ⟨"error", some "media-empty"⟩
  else if includes (lowerStr stdout) "out of ink" || includes (lowerStr stdout) "toner empty"
      || includes (lowerStr stdout) "ink empty" then
    ⟨"error", some "toner-empty"⟩
  else if includes (lowerStr stdout) "cover open" || includes (lowerStr stdout) "door open" then
    ⟨"error", some "cover-open"⟩
  else if includes (lowerStr stdout) "stopped" && !includes (lowerStr stdout) "idle" then
    ⟨"error", some "stopped"⟩
  else if includes (lowerStr stdout) "not connected" || includes (lowerStr stdout) "offline" then
    ⟨"error", some "offline"⟩
  else if includes (lowerStr stdout) "idle" || includes (lowerStr stdout) "processing" then
    ⟨"healthy", none⟩
  else
    ⟨"unknown", some "ipp_unsupported"⟩

/-- The disjunction of the five hard-error patterns of
`checkPrinterStatus` (out-of-paper/media, ink/toner, cover/door open,
stopped-without-idle, offline/not-connected). -/
def isFaultOutput (stdout : String) : Bool :=
  (includes (lowerStr stdout) "out of paper" || includes (lowerStr stdout) "media empty"
      || includes (lowerStr stdout) "no media")
  || (includes (lowerStr stdout) "out of ink" || includes (lowerStr stdout) "toner empty"
      || includes (lowerStr stdout) "ink empty")
  || (includes (lowerStr stdout) "cover open" || includes (lowerStr stdout) "door open")
  || (includes (lowerStr stdout) "stopped" && !includes (lowerStr stdout) "idle")
  || (includes (lowerStr stdout) "not connected" || includes (lowerStr stdout) "offline")

/-- Function `checkPrinterStatus` from `modules/printer.js`.  `printerName` is the
possibly-null `state.printerName`; the `exec` callback result is the
oracle pair `execError`/`stdout` (stderr is merged into stdout by
`2>&1`).  The promise only ever resolves, to one of the `StatusResult`
values. -/
def checkPrinterStatus (printerName : Option String) (execError : Bool) (stdout : String) :
    StatusResult :=
  match printerName with
  | none => ⟨"unknown", some "no_printer_configured"⟩
  | some _ =>
    if execError && !jsTruthy stdout then ⟨"unknown", some "cups_unavailable"⟩
    else classifyLpstatOutput stdout

/-! ## `modules/utils.js` — image conversion

`convertImageToPDF` shells out to `which` and ImageMagick and checks the
filesystem afterwards; those externals are the `ImageEnv` oracle. -/

/-- Result of one `execFile(tool, args, …)` invocation plus the
`fs.existsSync(outputPath)` check that follows it. -/
structure RunResult where
  execError : Bool
  errMessage : String
  outputExists : Bool
deriving DecidableEq, Repr

/-- Oracle for one `convertImageToPDF` call: what the filesystem and the
two candidate ImageMagick backends answer. -/
structure ImageEnv where
  inputExists : Bool
  magickFound : Bool
  magickRun : RunResult
  convertFound : Bool
  convertRun : RunResult
deriving DecidableEq, Repr

/-- The output path `convertImageToPDF` computes:
`inputPath.replace(ext, ".pdf")` with `ext` the lowercased extension —
JS `replace` rewrites the first occurrence of `ext`, which need not be
the final extension. -/
def imageOutputPath (inputPath : String) : String :=
  replaceFirst inputPath (lowerStr (extname inputPath)) ".pdf"

/-- Fallback `tryMagickV6` from `convertImageToPDF`: the older `convert` binary;
missing tool rejects with the tool-missing `ConversionError`, a failed
run or missing output rejects, success resolves with the output path. -/
def tryMagickV6 (env : ImageEnv) (outputPath : String) : Except ConversionError String :=
  if !env.convertFound then
    .error ⟨"ImageMagick not found. Install with: sudo apt install imagemagick", "image"⟩
  else if env.convertRun.execError then
    .error ⟨"Image conversion failed: " ++ env.convertRun.errMessage, "image"⟩
  else if !env.convertRun.outputExists then
    .error ⟨"PDF output not created by ImageMagick", "image"⟩
  else .ok outputPath

/-- Fallback `tryMagickV7` from `convertImageToPDF`: the newer `magick` binary;
any of tool missing, failed run, or missing output falls back to
`tryMagickV6`. -/
def tryMagickV7 (env : ImageEnv) (outputPath : String) : Except ConversionError String :=
  if !env.magickFound then tryMagickV6 env outputPath
  else if env.magickRun.execError then tryMagickV6 env outputPath
  else if !env.magickRun.outputExists then tryMagickV6 env outputPath
  else .ok outputPath

/-- Function `convertImageToPDF` from `modules/utils.js`: validate the input file
and extension, then run the two-tier backend fallback. -/
def convertImageToPDF (inputPath : String) (env : ImageEnv) : Except ConversionError String :=
  if !env.inputExists then .error ⟨"Input image does not exist", "image"⟩
  else if !([".png", ".jpg", ".jpeg"].contains (lowerStr (extname inputPath))) then
    .error ⟨"Unsupported image format: " ++ lowerStr (extname inputPath), "image"⟩
  else tryMagickV7 env (imageOutputPath inputPath)

/-! ## `modules/job-handler.js` — one job through the pipeline

`processJob` is modelled at the job boundary: the inbound descriptor,
a per-job oracle for the external steps (save, convert, parse, print),
and the socket connectivity flag go in; the emitted lifecycle events,
the scheduled file deletions, and the error (if any) escaping
`processJob` come out. -/

/-- The fields of an inbound job descriptor that `processJob` reads
(`job_id` is passed separately, as in the code). -/
structure JobDesc where
  filename : String
  pages : Option Nat
  fileData : String
deriving DecidableEq, Repr

/-- The lifecycle events `processJob` emits over the socket. -/
inductive Event where
  | jobReceived (jobId : String)
  | printStarted (jobId : String)
  | printCompleteOk (jobId : String) (pagesPrinted : Option Nat)
  | printCompleteErr (jobId : String) (error : String)
deriving DecidableEq, Repr

/-- A deletion batch scheduled with `setTimeout(…, delayMs)`; each
listed file is unlinked then if it still exists. -/
structure ScheduledCleanup where
  delayMs : Nat
  files : List String
deriving DecidableEq, Repr

/-- Oracle for one `processJob` run: what decoding/writing the payload,
the two converters, the PDF parser and the `lp` submission answer. -/
structure JobEnv where
  saveOk : Bool
  saveErr : String
  docConvert : Except ConversionError String
  imgConvert : Except ConversionError String
  pdfParse : Option Nat
  pdfParseErr : String
  printOk : Bool
  printErr : String
deriving Repr

/-- Path `path.join('./print-queue', jobId + '_' + filename)` (normalization
drops the leading `./`). -/
def originalPathOf (jobId : String) (job : JobDesc) : String :=
  "print-queue/" ++ jobId ++ "_" ++ job.filename

/-- The `try` block of `processJob`: the events emitted before the
boundary, and either the final printable path or the message of the
error thrown.  Mirrors the source order: save, `job_received`, classify,
convert/verify by kind, `print_started`, print. -/
def runPipeline (jobId : String) (job : JobDesc) (env : JobEnv) (connected : Bool) :
    List Event × Except String String :=
  if !env.saveOk then ([], .error env.saveErr)
  else
    let ev0 := if connected then [Event.jobReceived jobId] else []
    let fileType := getFileType job.filename
    let conv : Except String String :=
      if fileType = "document" then
        match env.docConvert with
        | .ok p => .ok p
        | .error e => .error e.message
      else if fileType = "image" then
        match env.imgConvert with
        | .ok p => .ok p
        | .error e => .error e.message
      else if fileType = "pdf" then
        match verifyPDF env.pdfParse env.pdfParseErr job.pages with
        | .ok _ => .ok (originalPathOf jobId job)
        | .error e => .error e.message
      else .error ("Unsupported file type: " ++ fileType)
    match conv with
    | .error msg => (ev0, .error msg)
    | .ok finalPdfPath =>
      let ev1 := ev0 ++ (if connected then [Event.printStarted jobId] else [])
      if !env.printOk then (ev1, .error ("Print command failed: " ++ env.printErr))
      else (ev1, .ok finalPdfPath)

/-- What one `processJob` run produces at its boundary. -/
structure JobResult where
  events : List Event
  cleanups : List ScheduledCleanup
  propagated : Option String
deriving DecidableEq, Repr

/-- Function `processJob` from `modules/job-handler.js`, single job: the `try`
block runs the pipeline; on success `print_complete{success:true}` is
emitted (when connected) and a 5000 ms deletion of the printable file
plus (if distinct) the original file is scheduled; the `catch` block
turns any pipeline error into `print_complete{success:false}` (when
connected) and schedules no deletion.  Nothing escapes the boundary. -/
def processJobOnce (jobId : String) (job : JobDesc) (env : JobEnv) (connected : Bool) :
    JobResult :=
  let originalPath := originalPathOf jobId job
  match runPipeline jobId job env connected with
  | (evs, .ok finalPdfPath) =>
    { events := evs ++ (if connected then [Event.printCompleteOk jobId job.pages] else []),
      cleanups := [⟨5000,
        finalPdfPath :: (if originalPath ≠ finalPdfPath then [originalPath] else [])⟩],
      propagated := none }
  | (evs, .error msg) =>
    { events := evs ++ (if connected then [Event.printCompleteErr jobId msg] else []),
      cleanups := [],
      propagated := none }

/-- The `finally` chain of `processJob`: after the current job's
boundary the next pending job (FIFO head) is processed, until the queue
is empty.  Collects all events and scheduled deletions. -/
def processQueue (envs : String → JobEnv) (connected : Bool) :
    List (String × JobDesc) → List Event × List ScheduledCleanup
  | [] => ([], [])
  | (jobId, job) :: rest =>
    let r := processJobOnce jobId job (envs jobId) connected
    let rest' := processQueue envs connected rest
    (r.events ++ rest'.1, r.cleanups ++ rest'.2)

/-- Is `e` the completion report (success or failure) for `jobId`? -/
def isCompletionFor (jobId : String) : Event → Bool
  | .printCompleteOk i _ => i == jobId
  | .printCompleteErr i _ => i == jobId
  | _ => false

/-! ## `modules/job-handler.js` — the executor as a transition system

`pollForJobs`/`processJob` run on Node's single-threaded event loop;
the observable instants are the synchronous bursts between `await`
points.  `ExecStep` has one constructor per burst that touches the
queue state:

* `pollBusy` — `pollForJobs` entered while a job is in progress:
  returns before fetching (lines 138–141);
* `poll` — a poll response arrives while idle: the batch is appended to
  `pendingJobs` in order and `processJob` starts on the queue head
  (lines 152–163);
* `pollAppend` — a poll that passed the idle entry check resumes after
  its HTTP await to find a job now current: the batch is still appended
  but `processJob` is not called (line 160's recheck);
* `work` — the current job's `processJob` advances one pipeline stage;
* `finish` — the current job reaches its terminal state: the `finally`
  block clears `currentJob`, deletes the job from `pendingJobs`, and
  immediately starts `processJob` on the new queue head if any
  (lines 271–281).

Job ids carry the spec's JobDescriptor guarantee of being globally
unique per session, so polled batches are fresh and duplicate-free. -/

/-- One entry of the `pendingJobs` map, with the number of pipeline
stages executed for it so far as ghost state (`0` = intake only, not
yet advanced by the executor). -/
structure PendingJob where
  id : String
  stage : Nat
deriving DecidableEq, Repr

/-- The queue-related fields of the agent `STATE`, plus ghost history:
ids ever polled and ids that reached a terminal state, in order. -/
structure ExecState where
  currentJob : Option String
  pendingJobs : List PendingJob
  polled : List String
  finished : List String
deriving DecidableEq, Repr

/-- The initial agent state. -/
def ExecState.init : ExecState := ⟨none, [], [], []⟩

/-- Call `processJob(first key of pendingJobs)` sets `currentJob` to the head
of the insertion-ordered map, if any. -/
def startCurrent (pending : List PendingJob) : Option String :=
  pending.head?.map (·.id)

/-- Small-step transitions of the executor (see the section comment). -/
inductive ExecStep : ExecState → ExecState → Prop where
  | pollBusy (s : ExecState) (j : String) (h : s.currentJob = some j) :
      ExecStep s s
  | poll (s : ExecState) (batch : List String)
      (hIdle : s.currentJob = none)
      (hNe : batch ≠ [])
      (hFresh : ∀ i ∈ batch, i ∉ s.polled)
      (hNodup : batch.Nodup) :
      ExecStep s
        { currentJob := startCurrent (s.pendingJobs ++ batch.map (⟨·, 0⟩)),
          pendingJobs := s.pendingJobs ++ batch.map (⟨·, 0⟩),
          polled := s.polled ++ batch,
          finished := s.finished }
  | pollAppend (s : ExecState) (batch : List String) (j : String)
      (hBusy : s.currentJob = some j)
      (hNe : batch ≠ [])
      (hFresh : ∀ i ∈ batch, i ∉ s.polled)
      (hNodup : batch.Nodup) :
      ExecStep s
        { s with
          pendingJobs := s.pendingJobs ++ batch.map (⟨·, 0⟩),
          polled := s.polled ++ batch }
  | work (s : ExecState) (j : String)
      (hCur : s.currentJob = some j) :
      ExecStep s
        { s with
          pendingJobs := s.pendingJobs.map fun p =>
            if p.id = j then ⟨p.id, p.stage + 1⟩ else p }
  | finish (s : ExecState) (j : String)
      (hCur : s.currentJob = some j) :
      ExecStep s
        { currentJob := startCurrent (s.pendingJobs.filter fun p => p.id ≠ j),
          pendingJobs := s.pendingJobs.filter fun p => p.id ≠ j,
          polled := s.polled,
          finished := s.finished ++ [j] }

/-- States reachable from the initial agent state. -/
inductive Reach : ExecState → Prop where
  | init : Reach ExecState.init
  | step {s t : ExecState} : Reach s → ExecStep s t → Reach t

/-- The inductive invariant of the executor: pending ids are distinct,
arrival order is exactly completion order followed by the queue order,
and the current job — when there is one — is the queue head, every
other queued job untouched (stage `0`). -/
def ExecInv (s : ExecState) : Prop :=
  (s.pendingJobs.map (·.id)).Nodup ∧
  s.polled = s.finished ++ s.pendingJobs.map (·.id) ∧
  (match s.currentJob with
   | some j => ∃ st rest, s.pendingJobs = ⟨j, st⟩ :: rest ∧ ∀ p ∈ rest, p.stage = 0
   | none => s.pendingJobs = [])

/-- Demo run for the executor: state after an idle poll fetched the
batch `["j1", "j2"]` and `processJob` started on `j1`. -/
def demoPoll : ExecState := ⟨some "j1", [⟨"j1", 0⟩, ⟨"j2", 0⟩], ["j1", "j2"], []⟩

/-- Demo run for the executor: `j1` advanced one pipeline stage while
`j2` waits untouched. -/
def demoWork : ExecState := ⟨some "j1", [⟨"j1", 1⟩, ⟨"j2", 0⟩], ["j1", "j2"], []⟩

/-- Demo run for the executor: `j1` reached its terminal state, was
dequeued, and `j2` was immediately started. -/
def demoFinal : ExecState := ⟨some "j2", [⟨"j2", 0⟩], ["j1", "j2"], ["j1"]⟩

/-! ## Theorems -/

/-- C4: the classifier is a pure total function of the filename's
extension, matched case-insensitively — `getFileType` coincides with the
spec's extension table applied to the lowercased `path.extname` of the
filename (so it depends on nothing but that extension), its value is
always one of the four kinds, and the documented table holds on
representative filenames of every casing, with everything else
(including filenames without an extension) mapping to `unknown`. -/
theorem getFileType_classifier :
    (∀ filename : String,
      getFileType filename = specClassify (lowerStr (extname filename))) ∧
    (∀ filename : String,
      getFileType filename = "pdf" ∨ getFileType filename = "document" ∨
        getFileType filename = "image" ∨ getFileType filename = "unknown") ∧
    getFileType "Report.PDF" = "pdf" ∧ getFileType "report.pdf" = "pdf" ∧
    getFileType "a.DocX" = "document" ∧ getFileType "b.rtf" = "document" ∧
    getFileType "c.ODT" = "document" ∧ getFileType "notes.md" = "document" ∧
    getFileType "d.TXT" = "document" ∧ getFileType "e.doc" = "document" ∧
    getFileType "photo.JpEg" = "image" ∧ getFileType "PHOTO.PNG" = "image" ∧
    getFileType "pic.jpg" = "image" ∧
    getFileType "archive.zip" = "unknown" ∧ getFileType "noextension" = "unknown" ∧
    getFileType "photo.gif" = "unknown" := by
  refine ⟨fun _ => rfl, ?_, by decide, by decide, by decide, by decide, by decide,
    by decide, by decide, by decide, by decide, by decide, by decide, by decide,
    by decide, by decide⟩
  intro filename
  simp only [getFileType]
  split_ifs <;> simp

/-- C9: the printer health check is total at its interface — with no
printer configured it answers `unknown/no_printer_configured`, when the
`lpstat` query itself fails with no output it answers
`unknown/cups_unavailable` instead of propagating the error, and in
every case it resolves to a classification whose status is one of
`unknown`/`error`/`healthy`. -/
theorem checkPrinterStatus_total :
    (∀ (execError : Bool) (stdout : String),
      checkPrinterStatus none execError stdout =
        ⟨"unknown", some "no_printer_configured"⟩) ∧
    (∀ p : String,
      checkPrinterStatus (some p) true "" = ⟨"unknown", some "cups_unavailable"⟩) ∧
    (∀ (printerName : Option String) (execError : Bool) (stdout : String),
      (checkPrinterStatus printerName execError stdout).status = "unknown" ∨
        (checkPrinterStatus printerName execError stdout).status = "error" ∨
        (checkPrinterStatus printerName execError stdout).status = "healthy") := by
  refine ⟨fun _ _ => rfl, fun _ => rfl, ?_⟩
  rintro (_ | p) e s
  · left; rfl
  · simp only [checkPrinterStatus, classifyLpstatOutput]
    split_ifs <;> simp

/-- C6: the health classification evaluates every fault pattern before
the healthy patterns: any output matching one of the five fault patterns
classifies as `error` (in particular when a healthy phrase co-occurs),
an output matching no fault pattern but containing `idle` or
`processing` is `healthy`, an output matching no pattern at all is
`unknown/ipp_unsupported`, and a concrete text containing both a fault
phrase and a healthy phrase classifies as `error`. -/
theorem classifyLpstatOutput_fault_precedence :
    (∀ s : String, isFaultOutput s = true → (classifyLpstatOutput s).status = "error") ∧
    (∀ s : String, isFaultOutput s = true →
      (includes (lowerStr s) "idle" || includes (lowerStr s) "processing") = true →
      (classifyLpstatOutput s).status = "error") ∧
    (∀ s : String, isFaultOutput s = false →
      (includes (lowerStr s) "idle" || includes (lowerStr s) "processing") = true →
      classifyLpstatOutput s = ⟨"healthy", none⟩) ∧
    (∀ s : String, isFaultOutput s = false →
      (includes (lowerStr s) "idle" || includes (lowerStr s) "processing") = false →
      classifyLpstatOutput s = ⟨"unknown", some "ipp_unsupported"⟩) ∧
    classifyLpstatOutput "printer HP is idle.  out of paper since Fri" =
      ⟨"error", some "media-empty"⟩ := by
  refine ⟨?_, ?_, ?_, ?_, by decide⟩ <;>
  · intro s
    simp only [classifyLpstatOutput, isFaultOutput]
    generalize includes (lowerStr s) "out of paper" = b1
    generalize includes (lowerStr s) "media empty" = b2
    generalize includes (lowerStr s) "no media" = b3
    generalize includes (lowerStr s) "out of ink" = b4
    generalize includes (lowerStr s) "toner empty" = b5
    generalize includes (lowerStr s) "ink empty" = b6
    generalize includes (lowerStr s) "cover open" = b7
    generalize includes (lowerStr s) "door open" = b8
    generalize includes (lowerStr s) "stopped" = b9
    generalize includes (lowerStr s) "idle" = b10
    generalize includes (lowerStr s) "not connected" = b11
    generalize includes (lowerStr s) "offline" = b12
    generalize includes (lowerStr s) "processing" = b13
    revert b1 b2 b3 b4 b5 b6 b7 b8 b9 b10 b11 b12 b13
    decide

/-- Witness for C6 at concrete inputs: a stopped-but-not-idle output
with a healthy phrase classifies as `error`, a purely healthy output as
`healthy`, and an unrecognized output as `unknown`. -/
theorem classifyLpstatOutput_fault_precedence_witness :
    (classifyLpstatOutput "printer HP: processing; printer stopped").status = "error" ∧
    classifyLpstatOutput "printer HP is idle." = ⟨"healthy", none⟩ ∧
    classifyLpstatOutput "lpstat: unrecognized" = ⟨"unknown", some "ipp_unsupported"⟩ := by
  exact ⟨classifyLpstatOutput_fault_precedence.2.1
          "printer HP: processing; printer stopped" (by decide) (by decide),
        classifyLpstatOutput_fault_precedence.2.2.1 "printer HP is idle."
          (by decide) (by decide),
        classifyLpstatOutput_fault_precedence.2.2.2.1 "lpstat: unrecognized"
          (by decide) (by decide)⟩

/-- C5: printer resolution returns a configured non-`auto` name
unchecked; for `auto` it returns the spooler's default destination when
one is reported, otherwise the first enumerated printer, and fails with
`PrinterError('No printers found')` when no printer exists; failure to
reach the spooler at all fails with the distinct
`PrinterError('No printers available')`. -/
theorem detectPrinter_resolution :
    (∀ (name : String) (r : LpstatResult), name ≠ "auto" →
      detectPrinter name r = .ok name) ∧
    detectPrinter "auto" .execError = .error ⟨"No printers available", none⟩ ∧
    (∀ stdout d, lpstatDefault stdout = some d → jsTruthy d = true →
      detectPrinter "auto" (.output stdout) = .ok d) ∧
    (∀ stdout p ps, jsTruthy ((lpstatDefault stdout).getD "") = false →
      lpstatPrinters stdout = p :: ps →
      detectPrinter "auto" (.output stdout) = .ok p) ∧
    (∀ stdout, jsTruthy ((lpstatDefault stdout).getD "") = false →
      lpstatPrinters stdout = [] →
      detectPrinter "auto" (.output stdout) = .error ⟨"No printers found", none⟩) ∧
    (⟨"No printers available", none⟩ : PrinterError) ≠ ⟨"No printers found", none⟩ := by
  refine ⟨?_, rfl, ?_, ?_, ?_, by decide⟩
  · intro name r h
    simp [detectPrinter, h]
  · intro stdout d h1 h2
    simp [detectPrinter, detectPrinterFromOutput, h1, h2]
  · intro stdout p ps h1 h2
    simp [detectPrinter, detectPrinterFromOutput, h1, h2]
  · intro stdout h1 h2
    simp [detectPrinter, detectPrinterFromOutput, h1, h2]

/-- Witness for C5 at concrete inputs: a configured name is returned
unchecked, a reported default destination wins over the enumerated
list, the first enumerated printer is used when there is no default,
and an output with neither yields the no-printer error. -/
theorem detectPrinter_resolution_witness :
    detectPrinter "HP_LaserJet_1020" .execError = .ok "HP_LaserJet_1020" ∧
    detectPrinter "auto"
        (.output "printer Brother_HL is idle.\nsystem default destination: HP_LaserJet") =
      .ok "HP_LaserJet" ∧
    detectPrinter "auto" (.output "printer Brother_HL is idle.\nprinter Epson is idle.") =
      .ok "Brother_HL" ∧
    detectPrinter "auto" (.output "lpstat: no destinations added") =
      .error ⟨"No printers found", none⟩ := by
  exact ⟨detectPrinter_resolution.1 "HP_LaserJet_1020" .execError (by decide),
        detectPrinter_resolution.2.2.1 _ "HP_LaserJet" (by decide) (by decide),
        detectPrinter_resolution.2.2.2.1 _ "Brother_HL" ["Epson"] (by decide) (by decide),
        detectPrinter_resolution.2.2.2.2.1 _ (by decide) (by decide)⟩

/-- C1 counterexample: on a PDF that fails to parse (parse oracle
`none`, as for a corrupt file), `verifyPDF` does not return `1` — it
throws a `ConversionError`, and a pdf-kind job with such a file is
failed by the page-count step: its pipeline ends in
`print_complete{success:false}`. -/
theorem verifyPDF_throws_on_parse_failure_cex :
    verifyPDF none "Invalid PDF structure" (some 3) =
      .error ⟨"PDF verification failed: Invalid PDF structure", "pdf"⟩ ∧
    verifyPDF none "Invalid PDF structure" (some 3) ≠ .ok (1, false) ∧
    verifyPDF none "Invalid PDF structure" (some 3) ≠ .ok (1, true) ∧
    (processJobOnce "job1" ⟨"report.pdf", some 3, "JVBERi0"⟩
        ⟨true, "", .ok "", .ok "", none, "Invalid PDF structure", true, ""⟩ true).events =
      [Event.jobReceived "job1",
        Event.printCompleteErr "job1" "PDF verification failed: Invalid PDF structure"] := by
  exact ⟨rfl, by decide, by decide, by decide⟩

/-- C1 amended: when the PDF parses, `verifyPDF` returns its actual page
count and a page-count mismatch against the advisory expected count only
logs a warning, never a failure; but when the PDF cannot be parsed,
`verifyPDF` throws `ConversionError('PDF verification failed: …')`
rather than returning `1`, so a pdf-kind job is failed by the page-count
step (reported as `print_complete{success:false}`). -/
theorem verifyPDF_amended :
    (∀ (n : Nat) (err : String) (expected : Option Nat),
      verifyPDF (some n) err expected = .ok (n, pageMismatchWarn n expected)) ∧
    (∀ (err : String) (expected : Option Nat),
      verifyPDF none err expected =
        .error ⟨"PDF verification failed: " ++ err, "pdf"⟩) ∧
    (∀ (jobId : String) (job : JobDesc) (env : JobEnv),
      getFileType job.filename = "pdf" → env.saveOk = true → env.pdfParse = none →
      Event.printCompleteErr jobId ("PDF verification failed: " ++ env.pdfParseErr) ∈
        (processJobOnce jobId job env true).events) := by
  refine ⟨fun _ _ _ => rfl, fun _ _ => rfl, ?_⟩
  intro jobId job env h1 h2 h3
  simp [processJobOnce, runPipeline, verifyPDF, h1, h2, h3]

/-- Witness for C1's amended theorem at concrete inputs: a parsed 3-page
PDF against an expected 3 pages verifies without warning, a parse
failure produces the `ConversionError`, and a concrete pdf-kind job
whose parse fails emits the failure completion event. -/
theorem verifyPDF_amended_witness :
    verifyPDF (some 3) "" (some 3) = .ok (3, false) ∧
    verifyPDF none "boom" none = .error ⟨"PDF verification failed: boom", "pdf"⟩ ∧
    Event.printCompleteErr "j1" "PDF verification failed: boom" ∈
      (processJobOnce "j1" ⟨"a.pdf", none, ""⟩
        ⟨true, "", .ok "", .ok "", none, "boom", true, ""⟩ true).events := by
  exact ⟨verifyPDF_amended.1 3 "" (some 3), verifyPDF_amended.2.1 "boom" none,
        verifyPDF_amended.2.2 "j1" ⟨"a.pdf", none, ""⟩
          ⟨true, "", .ok "", .ok "", none, "boom", true, ""⟩ (by decide) rfl rfl⟩

/-- C7: image conversion resolves its backend by a two-tier ordered
fallback — `magick` is tried first; if it is unavailable, its run
fails, or its output file is missing, `convert` is tried; a missing
`convert` fails with the tool-missing `ConversionError`; and a
successful result is only ever produced by one of the two backends
actually succeeding, so exhausting the candidate list never yields
success. -/
theorem convertImageToPDF_fallback :
    (∀ (p : String) (env : ImageEnv), env.inputExists = true →
      ([".png", ".jpg", ".jpeg"].contains (lowerStr (extname p))) = true →
      ((env.magickFound = false →
        convertImageToPDF p env = tryMagickV6 env (imageOutputPath p)) ∧
      (env.magickFound = true →
        (env.magickRun.execError = true ∨ env.magickRun.outputExists = false) →
        convertImageToPDF p env = tryMagickV6 env (imageOutputPath p)) ∧
      (env.magickFound = true → env.magickRun.execError = false →
        env.magickRun.outputExists = true →
        convertImageToPDF p env = .ok (imageOutputPath p)))) ∧
    (∀ env : ImageEnv, ∀ out : String, env.convertFound = false →
      tryMagickV6 env out =
        .error ⟨"ImageMagick not found. Install with: sudo apt install imagemagick",
          "image"⟩) ∧
    (∀ (p : String) (env : ImageEnv) (out : String),
      convertImageToPDF p env = .ok out →
      (env.magickFound = true ∧ env.magickRun.execError = false ∧
        env.magickRun.outputExists = true) ∨
      (env.convertFound = true ∧ env.convertRun.execError = false ∧
        env.convertRun.outputExists = true)) := by
  refine ⟨?_, ?_, ?_⟩
  · intro p env h1 h2
    refine ⟨?_, ?_, ?_⟩
    · intro h3
      unfold convertImageToPDF
      rw [h1, h2]
      simp [tryMagickV7, h3]
    · rintro h3 (h4 | h4) <;>
      · unfold convertImageToPDF
        rw [h1, h2]
        simp [tryMagickV7, h3, h4]
    · intro h3 h4 h5
      unfold convertImageToPDF
      rw [h1, h2]
      simp [tryMagickV7, h3, h4, h5]
  · intro env out h
    simp [tryMagickV6, h]
  · intro p env out h
    simp only [convertImageToPDF, tryMagickV7, tryMagickV6] at h
    split_ifs at h <;> simp_all

/-- Witness for C7 at concrete inputs: with `magick` missing and
`convert` succeeding the fallback succeeds through `convert`; with both
tools missing the conversion fails with the tool-missing error; with
`magick` present and succeeding, its output is returned. -/
theorem convertImageToPDF_fallback_witness :
    convertImageToPDF "print-queue/j_photo.png"
        ⟨true, false, ⟨false, "", false⟩, true, ⟨false, "", true⟩⟩ =
      .ok "print-queue/j_photo.pdf" ∧
    convertImageToPDF "print-queue/j_photo.png"
        ⟨true, false, ⟨false, "", false⟩, false, ⟨false, "", false⟩⟩ =
      .error ⟨"ImageMagick not found. Install with: sudo apt install imagemagick",
        "image"⟩ ∧
    convertImageToPDF "print-queue/j_photo.png"
        ⟨true, true, ⟨false, "", true⟩, false, ⟨false, "", false⟩⟩ =
      .ok "print-queue/j_photo.pdf" := by
  refine ⟨?_, ?_, ?_⟩
  · have h := (convertImageToPDF_fallback.1 "print-queue/j_photo.png"
      ⟨true, false, ⟨false, "", false⟩, true, ⟨false, "", true⟩⟩ rfl (by decide)).1 rfl
    rw [h]; decide
  · have h := (convertImageToPDF_fallback.1 "print-queue/j_photo.png"
      ⟨true, false, ⟨false, "", false⟩, false, ⟨false, "", false⟩⟩ rfl (by decide)).1 rfl
    rw [h]
    exact convertImageToPDF_fallback.2.1 _ _ rfl
  · exact (convertImageToPDF_fallback.1 "print-queue/j_photo.png"
      ⟨true, true, ⟨false, "", true⟩, false, ⟨false, "", false⟩⟩ rfl
        (by decide)).2.2 rfl rfl rfl

/-- C3 counterexample: a job that fails irrecoverably (unsupported file
type `photo.gif`) does reach the job boundary as a failure, yet
`processJob` schedules no file deletion at all on that path — the
claim's "on irrecoverable failure the files are deleted immediately"
does not hold: the backing files are not deleted, immediately or
otherwise. -/
theorem cleanup_on_failure_cex :
    (runPipeline "job3" ⟨"photo.gif", some 1, "R0lGOD"⟩
        ⟨true, "", .ok "", .ok "", some 1, "", true, ""⟩ true).2 =
      .error "Unsupported file type: unknown" ∧
    (processJobOnce "job3" ⟨"photo.gif", some 1, "R0lGOD"⟩
        ⟨true, "", .ok "", .ok "", some 1, "", true, ""⟩ true).cleanups = [] := by
  exact ⟨by decide, by decide⟩

/-- C3 amended: after successful completion, exactly the printable file
and (if distinct) the original working file are scheduled for deletion,
and only with the fixed 5000 ms grace delay — every deletion
`processJob` ever schedules carries that delay, so nothing is deleted
before it; on irrecoverable failure, however, `processJob` deletes no
backing files at all (the job is only dropped from the in-memory queue;
stale files are left to the periodic old-file sweeper). -/
theorem cleanup_schedule_amended :
    (∀ (jobId : String) (job : JobDesc) (env : JobEnv) (connected : Bool)
        (evs : List Event) (finalPath : String),
      runPipeline jobId job env connected = (evs, .ok finalPath) →
      (processJobOnce jobId job env connected).cleanups =
        [⟨5000, finalPath ::
          (if originalPathOf jobId job ≠ finalPath then [originalPathOf jobId job]
          else [])⟩]) ∧
    (∀ (jobId : String) (job : JobDesc) (env : JobEnv) (connected : Bool)
        (c : ScheduledCleanup),
      c ∈ (processJobOnce jobId job env connected).cleanups → c.delayMs = 5000) ∧
    (∀ (jobId : String) (job : JobDesc) (env : JobEnv) (connected : Bool)
        (evs : List Event) (msg : String),
      runPipeline jobId job env connected = (evs, .error msg) →
      (processJobOnce jobId job env connected).cleanups = []) := by
  refine ⟨?_, ?_, ?_⟩
  · intro jobId job env connected evs finalPath h
    simp [processJobOnce, h]
  · intro jobId job env connected c hc
    rcases hm : runPipeline jobId job env connected with ⟨evs, r⟩
    cases r with
    | ok finalPath =>
      simp only [processJobOnce, hm, List.mem_singleton] at hc
      rw [hc]
    | error msg =>
      simp [processJobOnce, hm] at hc
  · intro jobId job env connected evs msg h
    simp [processJobOnce, h]

/-- Witness for C3's amended theorem at concrete inputs: a successful
pdf job (printable file = working file) schedules exactly one deletion
of that file at 5000 ms; a successful image job schedules the converted
file and the distinct original at 5000 ms; the concrete scheduled
deletion carries delay 5000. -/
theorem cleanup_schedule_amended_witness :
    (processJobOnce "job1" ⟨"report.pdf", some 3, "JVBER"⟩
        ⟨true, "", .ok "", .ok "", some 3, "", true, ""⟩ true).cleanups =
      [⟨5000, ["print-queue/job1_report.pdf"]⟩] ∧
    (processJobOnce "job2" ⟨"pic.png", some 1, "iVBOR"⟩
        ⟨true, "", .ok "", .ok "print-queue/job2_pic.pdf", some 1, "", true, ""⟩
        true).cleanups =
      [⟨5000, ["print-queue/job2_pic.pdf", "print-queue/job2_pic.png"]⟩] ∧
    (⟨5000, ["print-queue/job2_pic.pdf", "print-queue/job2_pic.png"]⟩ :
        ScheduledCleanup).delayMs = 5000 := by
  refine ⟨?_, ?_, ?_⟩
  · have h := cleanup_schedule_amended.1 "job1" ⟨"report.pdf", some 3, "JVBER"⟩
      ⟨true, "", .ok "", .ok "", some 3, "", true, ""⟩ true
      [Event.jobReceived "job1", Event.printStarted "job1"]
      "print-queue/job1_report.pdf" (by decide)
    rw [h]; decide
  · have h := cleanup_schedule_amended.1 "job2" ⟨"pic.png", some 1, "iVBOR"⟩
      ⟨true, "", .ok "", .ok "print-queue/job2_pic.pdf", some 1, "", true, ""⟩ true
      [Event.jobReceived "job2", Event.printStarted "job2"]
      "print-queue/job2_pic.pdf" (by decide)
    rw [h]; decide
  · exact cleanup_schedule_amended.2.1 "job2" ⟨"pic.png", some 1, "iVBOR"⟩
      ⟨true, "", .ok "", .ok "print-queue/job2_pic.pdf", some 1, "", true, ""⟩ true
      ⟨5000, ["print-queue/job2_pic.pdf", "print-queue/job2_pic.png"]⟩
      (by decide)

/-- C8: every error raised inside a job's pipeline is caught at the job
boundary — nothing ever escapes `processJob`; when connected, a failed
pipeline is converted into the `print_complete{success:false, error}`
event; and every job of the pending queue receives its completion
report, so one job's failure never prevents the next pending job from
being dequeued and processed. -/
theorem job_errors_confined :
    (∀ (jobId : String) (job : JobDesc) (env : JobEnv) (connected : Bool),
      (processJobOnce jobId job env connected).propagated = none) ∧
    (∀ (jobId : String) (job : JobDesc) (env : JobEnv) (evs : List Event) (msg : String),
      runPipeline jobId job env true = (evs, .error msg) →
      Event.printCompleteErr jobId msg ∈ (processJobOnce jobId job env true).events) ∧
    (∀ (envs : String → JobEnv) (queue : List (String × JobDesc))
        (jobId : String) (job : JobDesc),
      (jobId, job) ∈ queue →
      ((processQueue envs true queue).1.any (isCompletionFor jobId)) = true) := by
  refine ⟨?_, ?_, ?_⟩
  · intro jobId job env connected
    rcases hm : runPipeline jobId job env connected with ⟨evs, r⟩
    cases r <;> simp [processJobOnce, hm]
  · intro jobId job env evs msg h
    simp [processJobOnce, h]
  · intro envs queue
    induction queue with
    | nil => intro jobId job h; cases h
    | cons hd tl ih =>
      intro jobId job h
      rcases List.mem_cons.mp h with heq | hmem
      · obtain ⟨e, he, hc⟩ : ∃ e ∈ (processJobOnce hd.1 hd.2 (envs hd.1) true).events,
            isCompletionFor hd.1 e = true := by
          rcases hm : runPipeline hd.1 hd.2 (envs hd.1) true with ⟨evs, r⟩
          cases r with
          | ok finalPath =>
            exact ⟨.printCompleteOk hd.1 hd.2.pages,
              by simp [processJobOnce, hm], by simp [isCompletionFor]⟩
          | error msg =>
            exact ⟨.printCompleteErr hd.1 msg,
              by simp [processJobOnce, hm], by simp [isCompletionFor]⟩
        rcases hd with ⟨hdId, hdJob⟩
        cases heq
        simp only [processQueue, List.any_append, Bool.or_eq_true, List.any_eq_true]
        exact Or.inl ⟨e, he, hc⟩
      · have hany := ih jobId job hmem
        rcases hd with ⟨hdId, hdJob⟩
        simp only [processQueue, List.any_append, Bool.or_eq_true]
        exact Or.inr hany

/-- Witness for C8 at concrete inputs: a failing job's error is turned
into its failure completion event, and in a two-job queue whose first
job fails, the second job still receives its completion report. -/
theorem job_errors_confined_witness :
    (processJobOnce "jA" ⟨"photo.gif", none, ""⟩
        ⟨true, "", .ok "", .ok "", none, "", true, ""⟩ true).propagated = none ∧
    Event.printCompleteErr "jA" "Unsupported file type: unknown" ∈
      (processJobOnce "jA" ⟨"photo.gif", none, ""⟩
        ⟨true, "", .ok "", .ok "", none, "", true, ""⟩ true).events ∧
    ((processQueue
        (fun _ => ⟨true, "", .ok "", .ok "", some 2, "", true, ""⟩) true
        [("jA", ⟨"photo.gif", none, ""⟩), ("jB", ⟨"b.pdf", some 2, ""⟩)]).1.any
      (isCompletionFor "jB")) = true := by
  refine ⟨job_errors_confined.1 "jA" ⟨"photo.gif", none, ""⟩
      ⟨true, "", .ok "", .ok "", none, "", true, ""⟩ true,
    job_errors_confined.2.1 "jA" ⟨"photo.gif", none, ""⟩
      ⟨true, "", .ok "", .ok "", none, "", true, ""⟩
      [Event.jobReceived "jA"] "Unsupported file type: unknown" (by decide),
    job_errors_confined.2.2 (fun _ => ⟨true, "", .ok "", .ok "", some 2, "", true, ""⟩)
      [("jA", ⟨"photo.gif", none, ""⟩), ("jB", ⟨"b.pdf", some 2, ""⟩)]
      "jB" ⟨"b.pdf", some 2, ""⟩ (by simp)⟩

/-- C10: a successful image conversion returns the input path with the
first occurrence of the lowercased extension substring replaced by
`.pdf`; when that substring occurs exactly once, at the end, this is the
plain extension swap (proved for the replacement function: if the
pattern has no earlier occurrence, replacing in `stem ++ pat` yields
`stem ++ rep`); when it occurs earlier, or when the on-disk extension is
not lowercase, the returned path is not the final-extension `.pdf`
sibling (concrete cases: `j1_a.png.png` becomes `j1_a.pdf.png`, and
`j1_photo.JPG` is returned unchanged). -/
theorem List.isPrefixOf_self_chars (l : List Char) : l.isPrefixOf l = true := by
  induction l with
  | nil => rfl
  | cons c cs ih => simp [List.isPrefixOf, ih]

theorem replaceFirstL_cons_step (pat rep : List Char) (c : Char) (cs : List Char) :
    replaceFirstL pat rep (c :: cs) =
      if pat.isPrefixOf (c :: cs) = true then rep ++ (c :: cs).drop pat.length
      else c :: replaceFirstL pat rep cs := rfl

theorem imageOutputPath_replacement :
    (∀ p : String, imageOutputPath p = replaceFirst p (lowerStr (extname p)) ".pdf") ∧
    (∀ stem pat rep : List Char,
      (∀ i < stem.length, pat.isPrefixOf ((stem ++ pat).drop i) = false) →
      replaceFirstL pat rep (stem ++ pat) = stem ++ rep) ∧
    imageOutputPath "print-queue/j1_photo.png" = "print-queue/j1_photo.pdf" ∧
    imageOutputPath "print-queue/j1_a.png.png" = "print-queue/j1_a.pdf.png" ∧
    imageOutputPath "print-queue/j1_a.png.png" ≠ "print-queue/j1_a.png.pdf" ∧
    imageOutputPath "print-queue/j1_photo.JPG" = "print-queue/j1_photo.JPG" ∧
    imageOutputPath "print-queue/j1_photo.JPG" ≠ "print-queue/j1_photo.pdf" := by
  refine ⟨fun _ => rfl, ?_, by decide, by decide, by decide, by decide, by decide⟩
  intro stem pat rep h
  induction stem with
  | nil =>
    cases pat with
    | nil => rfl
    | cons c cs =>
      rw [List.nil_append, replaceFirstL_cons_step,
        if_pos (List.isPrefixOf_self_chars (c :: cs))]
      simp
  | cons c stem' ih =>
    have h0 := h 0 (Nat.succ_pos _)
    rw [List.drop_zero] at h0
    rw [List.cons_append, replaceFirstL_cons_step]
    rw [show ((c :: stem') ++ pat) = (c :: (stem' ++ pat)) from List.cons_append .. ] at h0
    rw [h0]
    simp only [Bool.false_eq_true, if_false, List.cons_append]
    rw [ih]
    intro i hi
    have hh := h (i + 1) (Nat.succ_lt_succ hi)
    rwa [List.cons_append, List.drop_succ_cons] at hh

/-- Witness for C10's general replacement lemma at a concrete input:
`".png"` occurs only at the end of `"a.png"`, so the replacement is the
extension swap. -/
theorem imageOutputPath_replacement_witness :
    replaceFirstL [Char.ofNat 46, Char.ofNat 112, Char.ofNat 110, Char.ofNat 103]
        [Char.ofNat 46, Char.ofNat 112, Char.ofNat 100, Char.ofNat 102]
        ([Char.ofNat 97] ++
          [Char.ofNat 46, Char.ofNat 112, Char.ofNat 110, Char.ofNat 103]) =
      [Char.ofNat 97] ++ [Char.ofNat 46, Char.ofNat 112, Char.ofNat 100, Char.ofNat 102] := by
  exact imageOutputPath_replacement.2.1
    [Char.ofNat 97]
    [Char.ofNat 46, Char.ofNat 112, Char.ofNat 110, Char.ofNat 103]
    [Char.ofNat 46, Char.ofNat 112, Char.ofNat 100, Char.ofNat 102]
    (by decide)

theorem pendingFilter_eq_self {j : String} {l : List PendingJob}
    (h : ∀ p ∈ l, p.id ≠ j) : (l.filter fun p => p.id ≠ j) = l := by
  induction l with
  | nil => rfl
  | cons q qs ih =>
    rw [List.filter_cons_of_pos (by simpa using h q (List.mem_cons_self _ _)),
      ih fun p hp => h p (List.mem_cons_of_mem _ hp)]

theorem pendingMapUpd_eq_self {j : String} {l : List PendingJob}
    (h : ∀ p ∈ l, p.id ≠ j) :
    (l.map fun p => if p.id = j then PendingJob.mk p.id (p.stage + 1) else p) = l := by
  induction l with
  | nil => rfl
  | cons q qs ih =>
    rw [List.map_cons, if_neg (h q (List.mem_cons_self _ _)),
      ih fun p hp => h p (List.mem_cons_of_mem _ hp)]

theorem pendingMapUpd_ids (j : String) (l : List PendingJob) :
    ((l.map fun p => if p.id = j then PendingJob.mk p.id (p.stage + 1) else p).map
      (·.id)) = l.map (·.id) := by
  induction l with
  | nil => rfl
  | cons q qs ih =>
    simp only [List.map_cons, ih]
    by_cases hq : q.id = j <;> simp [hq]

/-- The ids of a freshly polled batch turned into stage-0 pending jobs. -/
theorem ids_of_freshMap (batch : List String) :
    ((batch.map (fun i => PendingJob.mk i 0)).map (·.id)) = batch := by
  induction batch with
  | nil => rfl
  | cons b bs ih => simp [ih]

/-- Every freshly polled pending job is at stage 0. -/
theorem stage_of_freshMap (batch : List String) :
    ∀ p ∈ batch.map (fun i => PendingJob.mk i 0), p.stage = 0 := by
  intro p hp
  obtain ⟨x, _, rfl⟩ := List.mem_map.mp hp
  rfl

/-- One executor step preserves the executor invariant. -/
theorem execStep_inv {s t : ExecState} (hstep : ExecStep s t) (ih : ExecInv s) :
    ExecInv t := by
  obtain ⟨hnd, hacc, hcur⟩ := ih
  cases hstep with
  | pollBusy j hj => exact ⟨hnd, hacc, hcur⟩
  | poll batch hIdle hNe hFresh hNodup =>
    simp only [hIdle] at hcur
    obtain ⟨b, bs, rfl⟩ := List.exists_cons_of_ne_nil hNe
    refine ⟨?_, ?_, ?_⟩
    · dsimp only
      rw [hcur, List.nil_append, ids_of_freshMap]
      exact hNodup
    · dsimp only
      rw [hcur, List.nil_append, ids_of_freshMap, hacc, hcur]
      simp
    · dsimp only
      rw [hcur, List.nil_append]
      simp only [List.map_cons, startCurrent, List.head?_cons, Option.map_some]
      exact ⟨0, bs.map (fun i => PendingJob.mk i 0), rfl,
        fun p hp => stage_of_freshMap bs p hp⟩
  | pollAppend batch j hBusy hNe hFresh hNodup =>
    simp only [hBusy] at hcur
    obtain ⟨st, rest, hPend, hrest⟩ := hcur
    refine ⟨?_, ?_, ?_⟩
    · dsimp only
      rw [List.map_append, List.nodup_append, ids_of_freshMap]
      refine ⟨hnd, hNodup, ?_⟩
      intro a ha hab
      have hpol : a ∈ s.polled := by
        rw [hacc]
        exact List.mem_append_right _ ha
      exact hFresh a hab hpol
    · dsimp only
      rw [List.map_append, ids_of_freshMap, hacc, List.append_assoc]
    · dsimp only
      simp only [hBusy]
      refine ⟨st, rest ++ batch.map (fun i => PendingJob.mk i 0), by rw [hPend]; rfl, ?_⟩
      intro p hp
      rcases List.mem_append.mp hp with hp | hp
      · exact hrest p hp
      · exact stage_of_freshMap batch p hp
  | work j hCur =>
    simp only [hCur] at hcur
    obtain ⟨st, rest, hPend, hrest⟩ := hcur
    have hrestne : ∀ p ∈ rest, p.id ≠ j := by
      intro p hp
      rw [hPend] at hnd
      simp only [List.map_cons, List.nodup_cons] at hnd
      intro hpe
      exact hnd.1 (hpe ▸ List.mem_map_of_mem _ hp)
    have hmap : (s.pendingJobs.map fun p =>
        if p.id = j then PendingJob.mk p.id (p.stage + 1) else p) =
        ⟨j, st + 1⟩ :: rest := by
      rw [hPend, List.map_cons, if_pos rfl, pendingMapUpd_eq_self hrestne]
    refine ⟨?_, ?_, ?_⟩
    · dsimp only
      rwa [pendingMapUpd_ids]
    · dsimp only
      rwa [pendingMapUpd_ids]
    · dsimp only
      simp only [hCur]
      exact ⟨st + 1, rest, hmap, hrest⟩
  | finish j hCur =>
    simp only [hCur] at hcur
    obtain ⟨st, rest, hPend, hrest⟩ := hcur
    have hrestne : ∀ p ∈ rest, p.id ≠ j := by
      intro p hp
      rw [hPend] at hnd
      simp only [List.map_cons, List.nodup_cons] at hnd
      intro hpe
      exact hnd.1 (hpe ▸ List.mem_map_of_mem _ hp)
    have hfilter : (s.pendingJobs.filter fun p => p.id ≠ j) = rest := by
      rw [hPend, List.filter_cons_of_neg (by simp), pendingFilter_eq_self hrestne]
    refine ⟨?_, ?_, ?_⟩
    · dsimp only
      rw [hfilter]
      rw [hPend] at hnd
      simp only [List.map_cons, List.nodup_cons] at hnd
      exact hnd.2
    · dsimp only
      rw [hfilter, hacc, hPend]
      simp
    · dsimp only
      rw [hfilter]
      cases rest with
      | nil => rfl
      | cons q qs =>
        simp only [startCurrent, List.head?_cons, Option.map_some]
        exact ⟨q.stage, qs, rfl, fun p hp => hrest p (List.mem_cons_of_mem _ hp)⟩

/-- Every reachable executor state satisfies the executor invariant. -/
theorem reach_execInv {s : ExecState} (h : Reach s) : ExecInv s := by
  induction h with
  | init => exact ⟨List.nodup_nil, rfl, rfl⟩
  | step hr hstep ih => exact execStep_inv hstep ih

/-- C2: in every reachable executor state at most one job is
mid-pipeline — at most one pending job has advanced past intake, and
any such job is exactly the one `currentJob` points to; the current job
is always the head of the insertion-ordered pending queue; the arrival
order equals the completion order followed by the queue order (FIFO in,
FIFO out, no reordering); and when no job is current the queue is empty
(the next pending job is dequeued immediately on terminal states). -/
theorem executor_single_job_fifo {s : ExecState} (h : Reach s) :
    (s.pendingJobs.filter fun p => p.stage ≠ 0).length ≤ 1 ∧
    (∀ p ∈ s.pendingJobs, p.stage ≠ 0 → s.currentJob = some p.id) ∧
    (∀ j, s.currentJob = some j → startCurrent s.pendingJobs = some j) ∧
    s.polled = s.finished ++ s.pendingJobs.map (·.id) ∧
    (s.currentJob = none → s.pendingJobs = []) := by
  obtain ⟨hnd, hacc, hcur⟩ := reach_execInv h
  cases hc : s.currentJob with
  | none =>
    simp only [hc] at hcur
    refine ⟨?_, ?_, ?_, hacc, fun _ => hcur⟩
    · rw [hcur]; simp
    · intro p hp
      rw [hcur] at hp
      cases hp
    · intro j hj
      simp at hj
  | some j =>
    simp only [hc] at hcur
    obtain ⟨st, rest, hPend, hrest⟩ := hcur
    have hrestf : (rest.filter fun p => p.stage ≠ 0) = [] := by
      rw [List.filter_eq_nil_iff]
      intro p hp
      simp [hrest p hp]
    refine ⟨?_, ?_, ?_, hacc, ?_⟩
    · rw [hPend, List.filter_cons, hrestf]
      split <;> simp
    · intro p hp hstage
      rw [hPend] at hp
      rcases List.mem_cons.mp hp with rfl | hp
      · rfl
      · exact absurd (hrest p hp) hstage
    · intro j' hj'
      cases hj'
      rw [hPend]
      rfl
    · intro h0
      simp at h0

/-- Witness for C2: a concrete three-step run (idle poll of the batch
`["j1", "j2"]`, one pipeline stage of `j1`, terminal state of `j1`)
reaches `demoFinal`, where the invariant conclusions evaluate: at most
one mid-pipeline job, `j2` now current as the queue head, and polled
order = finished order followed by queue order. -/
theorem executor_single_job_fifo_witness :
    (demoFinal.pendingJobs.filter fun p => p.stage ≠ 0).length ≤ 1 ∧
    startCurrent demoFinal.pendingJobs = some "j2" ∧
    demoFinal.polled = demoFinal.finished ++ demoFinal.pendingJobs.map (·.id) := by
  have s1 : ExecStep ExecState.init demoPoll :=
    ExecStep.poll ExecState.init ["j1", "j2"] rfl (by decide) (by decide) (by decide)
  have s2 : ExecStep demoPoll demoWork :=
    ExecStep.work demoPoll "j1" rfl
  have s3 : ExecStep demoWork demoFinal :=
    ExecStep.finish demoWork "j1" rfl
  have hreach : Reach demoFinal :=
    Reach.step (Reach.step (Reach.step Reach.init s1) s2) s3
  have h := executor_single_job_fifo hreach
  exact ⟨h.1, h.2.2.1 "j2" rfl, h.2.2.2.1⟩

end PiAgent
